import Mathlib

/-!
# Tiggit: the status notifier (`src/app_wx/notifier.cpp`)

A shallow embedding of `StatusNotifier::tick` and `StatusNotifier::statusChanged`.

* Pointers (`GameInf*`, the `updateJob` handle, the `data` pointer) are natural numbers.
* What the polled objects answer during one tick is an input, the `Heap`.
* Every call the tick makes on a collaborator is appended to a chronological log of
  `Event`s; the tick returns the new notifier together with that log.
* `watchList` is a `std::set<GameInf*>`; it is the list of its nodes in iteration order.
-/

namespace Tiggit

/-! ## Data model -/

/-- Modelled from the spec: the four states of a Job Handle (`Spread::JobInfo`, declared in
`spread/job/jobinfo.hpp`, which is not among the sources): `Running`, `Succeeded`,
`Failed(message)`, `Aborted`. -/
inductive JobStatus where
  | running
  | succeeded
  | failed
  | aborted
  deriving DecidableEq, Repr

/-- Modelled from the spec: a Job Handle as the tick sees it, a state and a message. -/
structure JobInfo where
  status : JobStatus
  message : String
  deriving DecidableEq, Repr

namespace JobInfo

/-- Modelled from the spec: `isFinished()`, true in every state but `Running`. -/
def isFinished (j : JobInfo) : Bool :=
  match j.status with
  | JobStatus.running => false
  | _ => true

/-- Modelled from the spec: `isSuccess()`. -/
def isSuccess (j : JobInfo) : Bool :=
  match j.status with
  | JobStatus.succeeded => true
  | _ => false

/-- Modelled from the spec: `isError()`. -/
def isError (j : JobInfo) : Bool :=
  match j.status with
  | JobStatus.failed => true
  | _ => false

/-- Modelled from the spec: `isAbort()`. -/
def isAbort (j : JobInfo) : Bool :=
  match j.status with
  | JobStatus.aborted => true
  | _ => false

/-- Modelled from the spec: `getMessage()`. -/
def getMessage (j : JobInfo) : String := j.message

end JobInfo

/-- What a `GameInf` answers when the tick visits it (`gamedata.hpp` is not among the
sources, so both answers are inputs): the result of `inf->isWorking()` and the job
information behind `inf->info.getStatus()`. No relation between the two is assumed. -/
structure GameInf where
  working : Bool
  info : JobInfo
  deriving DecidableEq, Repr

namespace GameInf

/-- The answer of `inf->isWorking()`. -/
def isWorking (g : GameInf) : Bool := g.working

/-- The object behind `inf->info.getStatus()`. -/
def getStatus (g : GameInf) : JobInfo := g.info

end GameInf

/-- The objects the tick polls, by address: the job behind a job handle and the game
behind a `GameInf*`, as they answer during one tick. The tick looks at the update job
once and at each node of the watch list once, so one answer per object describes a whole
tick; between two ticks the heap may change. -/
structure Heap where
  job : Nat → JobInfo
  game : Nat → GameInf

/-- One observable step of the notifier, named after the call of the source text. In
`error` the message is accompanied by the game the box is raised for. -/
inductive Event where
  | updateReady                         -- data->updateReady(), line 21
  | reset                               -- updateJob.reset(), line 26
  | isWorking (inf : Nat)               -- inf->isWorking(), line 47
  | erase (inf : Nat)                   -- watchList.erase(itold), line 49
  | getStatus (inf : Nat)               -- inf->info.getStatus(), line 53
  | error (inf : Nat) (msg : String)    -- Boxes::error(info->getMessage()), line 55
  | updateStatus (inf : Nat)            -- inf->updateStatus(), line 59
  | installStatusChanged                -- data->installStatusChanged(), line 80: full refresh
  | updateDisplayStatus                 -- data->updateDisplayStatus(), line 74: partial refresh
  deriving DecidableEq, Repr

/-- The members of `StatusNotifier` that `notifier.cpp` uses: the `data` pointer (`none` is
the null pointer), the `updateJob` handle (`none` is the empty shared pointer) and the
nodes of `watchList` in iteration order. -/
structure StatusNotifier where
  data : Option Nat
  updateJob : Option Nat
  watchList : List Nat
  deriving DecidableEq, Repr

/-! ## `StatusNotifier::statusChanged` (lines 77-81) -/

/-- The body `if(data) data->installStatusChanged();`, as the calls it makes. -/
def statusChanged (s : StatusNotifier) : List Event :=
  match s.data with
  | some _ => [Event.installStatusChanged]
  | none => []

/-! ## `StatusNotifier::tick` (lines 7-75) -/

/-- Lines 15-27: the new value of `updateJob` and the calls made while looking at it. -/
def checkUpdateJob (h : Heap) (updateJob : Option Nat) : Option Nat × List Event :=
  match updateJob with
  | none => (none, [])
  | some j =>
    if (h.job j).isFinished then
      if (h.job j).isSuccess then
        (none, [Event.updateReady, Event.reset])
      else
        (none, [Event.reset])
    else
      (some j, [])

/-- The variables of the loop of lines 33-60. The live `watchList` is `before` followed by
the nodes from the iterator `it` on; `before` holds the visited nodes that were not
erased. -/
structure Sweep where
  before : List Nat
  soft : Bool
  hard : Bool
  log : List Event
  deriving DecidableEq, Repr

/-- Lines 45-56, the branch `if(!inf->isWorking())`: the node is erased (it does not join
`before`), `hard` is set and an error status is reported. -/
def finishGame (h : Heap) (inf : Nat) (s : Sweep) : Sweep :=
  let info := (h.game inf).getStatus
  let log := s.log ++ [Event.erase inf, Event.getStatus inf]
  if info.isError then
    { s with hard := true, log := log ++ [Event.error inf info.getMessage] }
  else
    { s with hard := true, log := log }

/-- One iteration of the loop body, lines 35-59, on the node `inf = *itold`. -/
def visit (h : Heap) (inf : Nat) (s : Sweep) : Sweep :=
  let s1 : Sweep := { s with soft := true, log := s.log ++ [Event.isWorking inf] }
  let s2 : Sweep :=
    if (h.game inf).isWorking then
      { s1 with before := s1.before ++ [inf] }
    else
      finishGame h inf s1
  { s2 with log := s2.log ++ [Event.updateStatus inf] }

/-- The loop `for(it = watchList.begin(); it != watchList.end();)`: the first argument is
the list of nodes from `it` to the end. -/
def sweep (h : Heap) : List Nat → Sweep → Sweep
  | [], s => s
  | inf :: it, s => sweep h it (visit h inf s)

/-- The method `StatusNotifier::tick`: the notifier after the tick and the log of the tick. -/
def tick (h : Heap) (s : StatusNotifier) : StatusNotifier × List Event :=
  match s.data with
  | none => (s, [])
  | some _ =>
    let u := checkUpdateJob h s.updateJob
    let w := sweep h s.watchList { before := [], soft := false, hard := false, log := u.2 }
    let s1 : StatusNotifier := { s with updateJob := u.1, watchList := w.before }
    if w.hard then
      (s1, w.log ++ statusChanged s1)
    else if w.soft then
      (s1, w.log ++ [Event.updateDisplayStatus])
    else
      (s1, w.log)

/-! ## Reading a log -/

/-- The games `isWorking()` was called on, in order. -/
def polled (log : List Event) : List Nat :=
  log.filterMap fun e => match e with
    | Event.isWorking inf => some inf
    | _ => none

/-- The games erased from `watchList`, in order. -/
def erased (log : List Event) : List Nat :=
  log.filterMap fun e => match e with
    | Event.erase inf => some inf
    | _ => none

/-- The error boxes raised, in order: the game and the message shown. -/
def errors (log : List Event) : List (Nat × String) :=
  log.filterMap fun e => match e with
    | Event.error inf msg => some (inf, msg)
    | _ => none

/-- The games `updateStatus()` was called on, in order. -/
def updated (log : List Event) : List Nat :=
  log.filterMap fun e => match e with
    | Event.updateStatus inf => some inf
    | _ => none

/-- A game whose operation is over and ended in an error, as the tick tests it
(lines 47 and 54). -/
def failedGame (h : Heap) (inf : Nat) : Bool :=
  !(h.game inf).isWorking && (h.game inf).getStatus.isError

/-- The calls of one loop iteration on `inf`, used to describe the log of `sweep`. -/
def visitLog (h : Heap) (inf : Nat) : List Event :=
  if (h.game inf).isWorking then
    [Event.isWorking inf, Event.updateStatus inf]
  else if (h.game inf).getStatus.isError then
    [Event.isWorking inf, Event.erase inf, Event.getStatus inf,
      Event.error inf (h.game inf).getStatus.getMessage, Event.updateStatus inf]
  else
    [Event.isWorking inf, Event.erase inf, Event.getStatus inf, Event.updateStatus inf]

/-- The refresh call that ends a tick over the watch list `w` (lines 67-74), used to
describe the log of `tick`. -/
def refreshLog (h : Heap) (w : List Nat) : List Event :=
  if w.any (fun inf => !(h.game inf).isWorking) then [Event.installStatusChanged]
  else if w.isEmpty then []
  else [Event.updateDisplayStatus]

/-! ## Entering a game in the watch list -/

/-- Modelled from the spec: `add(entity)` on the Watch Set, "idempotent insertion; no
effect if already present" (the method is declared in `notifier.hpp`, which is not among
the sources). The set is a `std::set<GameInf*>`, so the node goes to its place in
ascending order of address. -/
def insertNode (inf : Nat) : List Nat → List Nat
  | [] => [inf]
  | x :: xs =>
    if inf < x then inf :: x :: xs
    else if inf = x then x :: xs
    else x :: insertNode inf xs

/-- Modelled from the spec: `add(entity)` as an operation of the notifier. -/
def add (s : StatusNotifier) (inf : Nat) : StatusNotifier :=
  { s with watchList := insertNode inf s.watchList }

/-- The nodes of a `std::set<GameInf*>` come in strictly ascending order of address. -/
def ascending (w : List Nat) : Prop := w.Pairwise (fun a b => a < b)

/-! ## Steps and runs of the notifier -/

/-- The method `StatusNotifier::statusChanged` as a step of the notifier: its body assigns
no member, so the notifier after the call is the one before it, and the calls made are
those of `statusChanged`. -/
def statusChangedStep (s : StatusNotifier) : StatusNotifier × List Event :=
  (s, statusChanged s)

/-- What the rest of the program may do to the notifier between two ticks: it may enter
games in the watch list and assign the update job slot, in any number and order. The
`data` pointer stays as it is and no game leaves the watch list, since `tick` is the only
code that erases from it. The notifier `t` is one that `s` may have become. -/
def mayBecome (s t : StatusNotifier) : Prop :=
  t.data = s.data ∧ ∀ inf ∈ s.watchList, inf ∈ t.watchList

/-- One firing of the timer in a run: the notifier the tick starts from and the heap the
tick polls. -/
structure Round where
  start : StatusNotifier
  heap : Heap

/-- The call `tick` of a round: the notifier it leaves and its log. -/
def Round.run (r : Round) : StatusNotifier × List Event := tick r.heap r.start

/-- A run of ticks from the notifier `s`: the first round starts from a notifier `s` may
have become, and each later round from one that the notifier left by the tick before it
may have become. -/
def isRun : StatusNotifier → List Round → Prop
  | _, [] => True
  | s, r :: rs => mayBecome s r.start ∧ isRun r.run.1 rs

/-- The notifier a run from `s` ends with: the one left by the last tick. -/
def runEnd : StatusNotifier → List Round → StatusNotifier
  | s, [] => s
  | _, r :: rs => runEnd r.run.1 rs

/-- The logs of the ticks of a run, in order. -/
def runLogs (rs : List Round) : List (List Event) :=
  rs.map (fun r => r.run.2)

/-- The heap `h` with the answers of the game at address `p` replaced by `g`. -/
def setGame (h : Heap) (p : Nat) (g : GameInf) : Heap :=
  { h with game := fun i => if i = p then g else h.game i }

/-! ## Sample inputs -/

/-- A heap for the examples. Job 7 has succeeded, job 8 has failed, every other job is
running. Game 2 has finished with the error "disk full", game 3 has finished with
success, game 4 was aborted, every other game is working. -/
def sampleHeap : Heap where
  job := fun j =>
    if j = 7 then { status := JobStatus.succeeded, message := "" }
    else if j = 8 then { status := JobStatus.failed, message := "no network" }
    else { status := JobStatus.running, message := "" }
  game := fun i =>
    if i = 2 then { working := false, info := { status := JobStatus.failed, message := "disk full" } }
    else if i = 3 then { working := false, info := { status := JobStatus.succeeded, message := "" } }
    else if i = 4 then { working := false, info := { status := JobStatus.aborted, message := "" } }
    else { working := true, info := { status := JobStatus.running, message := "" } }

/-- A notifier with the `data` pointer set, the update job `u` and the watch list `w`. -/
def attached (u : Option Nat) (w : List Nat) : StatusNotifier :=
  { data := some 100, updateJob := u, watchList := w }

/-- A notifier without `data` pointer, the update job `u` and the watch list `w`. -/
def detached (u : Option Nat) (w : List Nat) : StatusNotifier :=
  { data := none, updateJob := u, watchList := w }

/-! ## The loop and the tick in closed form -/

theorem visit_eq (h : Heap) (inf : Nat) (s : Sweep) :
    visit h inf s =
      { before := s.before ++ [inf].filter (fun i => (h.game i).isWorking)
        soft := true
        hard := s.hard || !(h.game inf).isWorking
        log := s.log ++ visitLog h inf } := by
  unfold visit finishGame visitLog
  cases hw : (h.game inf).isWorking <;> cases he : (h.game inf).getStatus.isError <;>
    simp [hw, he]

theorem sweep_eq (h : Heap) (it : List Nat) (s : Sweep) :
    sweep h it s =
      { before := s.before ++ it.filter (fun i => (h.game i).isWorking)
        soft := s.soft || !it.isEmpty
        hard := s.hard || it.any (fun i => !(h.game i).isWorking)
        log := s.log ++ it.flatMap (visitLog h) } := by
  induction it generalizing s with
  | nil => simp [sweep]
  | cons a it ih =>
    rw [sweep, ih, visit_eq]
    cases hw : (h.game a).isWorking <;> simp [hw, List.filter_cons, Bool.or_assoc]

theorem tick_without_data_aux (h : Heap) (s : StatusNotifier) (hd : s.data = none) :
    tick h s = (s, []) := by
  unfold tick
  rw [hd]

theorem tick_eq (h : Heap) (s : StatusNotifier) (d : Nat) (hd : s.data = some d) :
    tick h s =
      ({ s with
          updateJob := (checkUpdateJob h s.updateJob).1
          watchList := s.watchList.filter (fun i => (h.game i).isWorking) },
        (checkUpdateJob h s.updateJob).2 ++ s.watchList.flatMap (visitLog h) ++
          refreshLog h s.watchList) := by
  unfold tick
  rw [hd]
  simp only [sweep_eq, statusChanged, refreshLog, hd]
  cases ha : s.watchList.any (fun i => !(h.game i).isWorking) <;>
    cases hem : s.watchList.isEmpty <;> simp [ha, hem]

/-! ## What each part of a tick adds to the log -/

theorem polled_append (a b : List Event) : polled (a ++ b) = polled a ++ polled b := by
  simp [polled, List.filterMap_append]

theorem erased_append (a b : List Event) : erased (a ++ b) = erased a ++ erased b := by
  simp [erased, List.filterMap_append]

theorem errors_append (a b : List Event) : errors (a ++ b) = errors a ++ errors b := by
  simp [errors, List.filterMap_append]

theorem updated_append (a b : List Event) : updated (a ++ b) = updated a ++ updated b := by
  simp [updated, List.filterMap_append]

theorem checkUpdateJob_log (h : Heap) (u : Option Nat) :
    (checkUpdateJob h u).2 = [] ∨ (checkUpdateJob h u).2 = [Event.reset] ∨
      (checkUpdateJob h u).2 = [Event.updateReady, Event.reset] := by
  unfold checkUpdateJob
  cases u with
  | none => simp
  | some j =>
    cases hf : (h.job j).isFinished <;> cases hs : (h.job j).isSuccess <;> simp [hf, hs]

theorem checkUpdateJob_reads (h : Heap) (u : Option Nat) :
    polled (checkUpdateJob h u).2 = [] ∧ erased (checkUpdateJob h u).2 = [] ∧
      errors (checkUpdateJob h u).2 = [] ∧ updated (checkUpdateJob h u).2 = [] := by
  rcases checkUpdateJob_log h u with e | e | e <;> rw [e] <;>
    simp [polled, erased, errors, updated]

theorem refreshLog_reads (h : Heap) (w : List Nat) :
    polled (refreshLog h w) = [] ∧ erased (refreshLog h w) = [] ∧
      errors (refreshLog h w) = [] ∧ updated (refreshLog h w) = [] := by
  unfold refreshLog
  split_ifs <;> simp [polled, erased, errors, updated]

theorem polled_visits (h : Heap) (w : List Nat) : polled (w.flatMap (visitLog h)) = w := by
  induction w with
  | nil => rfl
  | cons a w ih =>
    rw [List.flatMap_cons, polled_append, ih]
    unfold visitLog
    split_ifs <;> simp [polled]

theorem updated_visits (h : Heap) (w : List Nat) : updated (w.flatMap (visitLog h)) = w := by
  induction w with
  | nil => rfl
  | cons a w ih =>
    rw [List.flatMap_cons, updated_append, ih]
    unfold visitLog
    split_ifs <;> simp [updated]

theorem erased_visits (h : Heap) (w : List Nat) :
    erased (w.flatMap (visitLog h)) = w.filter (fun i => !(h.game i).isWorking) := by
  induction w with
  | nil => rfl
  | cons a w ih =>
    rw [List.flatMap_cons, erased_append, ih]
    unfold visitLog
    cases hw : (h.game a).isWorking <;> cases he : (h.game a).getStatus.isError <;>
      simp [erased, hw, List.filter_cons]

theorem errors_visits (h : Heap) (w : List Nat) :
    errors (w.flatMap (visitLog h)) =
      (w.filter (failedGame h)).map (fun i => (i, (h.game i).getStatus.getMessage)) := by
  induction w with
  | nil => rfl
  | cons a w ih =>
    rw [List.flatMap_cons, errors_append, ih]
    unfold visitLog
    cases hw : (h.game a).isWorking <;> cases he : (h.game a).getStatus.isError <;>
      simp [errors, failedGame, hw, he, List.filter_cons]

theorem signal_not_mem_visits (h : Heap) (w : List Nat) :
    Event.updateReady ∉ w.flatMap (visitLog h) ∧
      Event.installStatusChanged ∉ w.flatMap (visitLog h) ∧
      Event.updateDisplayStatus ∉ w.flatMap (visitLog h) := by
  refine ⟨?_, ?_, ?_⟩ <;>
  · intro hm
    obtain ⟨a, _, ha⟩ := List.mem_flatMap.mp hm
    unfold visitLog at ha
    split_ifs at ha <;> simp at ha

theorem signal_not_mem_checkUpdateJob (h : Heap) (u : Option Nat) :
    Event.installStatusChanged ∉ (checkUpdateJob h u).2 ∧
      Event.updateDisplayStatus ∉ (checkUpdateJob h u).2 := by
  rcases checkUpdateJob_log h u with e | e | e <;> rw [e] <;> simp

theorem count_box (h : Heap) (inf : Nat) (l : List Nat) :
    (l.map (fun i => (i, (h.game i).getStatus.getMessage))).count
        (inf, (h.game inf).getStatus.getMessage) = l.count inf := by
  induction l with
  | nil => rfl
  | cons a l ih =>
    rw [List.map_cons, List.count_cons, List.count_cons, ih]
    by_cases ha : a = inf
    · subst ha; simp
    · simp [ha]

theorem polled_tick (h : Heap) (s : StatusNotifier) (d : Nat) (hd : s.data = some d) :
    polled (tick h s).2 = s.watchList := by
  rw [tick_eq h s d hd]
  simp [polled_append, (checkUpdateJob_reads h s.updateJob).1, (refreshLog_reads h _).1,
    polled_visits]

theorem updated_tick (h : Heap) (s : StatusNotifier) (d : Nat) (hd : s.data = some d) :
    updated (tick h s).2 = s.watchList := by
  rw [tick_eq h s d hd]
  simp [updated_append, (checkUpdateJob_reads h s.updateJob).2.2.2,
    (refreshLog_reads h _).2.2.2, updated_visits]

theorem erased_tick (h : Heap) (s : StatusNotifier) (d : Nat) (hd : s.data = some d) :
    erased (tick h s).2 = s.watchList.filter (fun i => !(h.game i).isWorking) := by
  rw [tick_eq h s d hd]
  simp [erased_append, (checkUpdateJob_reads h s.updateJob).2.1,
    (refreshLog_reads h _).2.1, erased_visits]

theorem errors_tick (h : Heap) (s : StatusNotifier) (d : Nat) (hd : s.data = some d) :
    errors (tick h s).2 =
      (s.watchList.filter (failedGame h)).map
        (fun i => (i, (h.game i).getStatus.getMessage)) := by
  rw [tick_eq h s d hd]
  simp [errors_append, (checkUpdateJob_reads h s.updateJob).2.2.1,
    (refreshLog_reads h _).2.2.1, errors_visits]

theorem count_full_tick (h : Heap) (s : StatusNotifier) (d : Nat) (hd : s.data = some d) :
    (tick h s).2.count Event.installStatusChanged =
      if s.watchList.any (fun i => !(h.game i).isWorking) then 1 else 0 := by
  rw [tick_eq h s d hd]
  simp only [List.count_append]
  rw [List.count_eq_zero.mpr (signal_not_mem_checkUpdateJob h _).1,
    List.count_eq_zero.mpr (signal_not_mem_visits h _).2.1]
  unfold refreshLog
  split_ifs <;> simp

theorem count_soft_tick (h : Heap) (s : StatusNotifier) (d : Nat) (hd : s.data = some d) :
    (tick h s).2.count Event.updateDisplayStatus =
      if s.watchList.any (fun i => !(h.game i).isWorking) then 0
      else if s.watchList.isEmpty then 0 else 1 := by
  rw [tick_eq h s d hd]
  simp only [List.count_append]
  rw [List.count_eq_zero.mpr (signal_not_mem_checkUpdateJob h _).2,
    List.count_eq_zero.mpr (signal_not_mem_visits h _).2.2]
  unfold refreshLog
  split_ifs <;> simp

theorem count_ready_tick (h : Heap) (s : StatusNotifier) (d : Nat) (hd : s.data = some d) :
    (tick h s).2.count Event.updateReady =
      (checkUpdateJob h s.updateJob).2.count Event.updateReady := by
  rw [tick_eq h s d hd]
  simp only [List.count_append]
  rw [List.count_eq_zero.mpr (signal_not_mem_visits h _).1]
  have : Event.updateReady ∉ refreshLog h s.watchList := by
    unfold refreshLog
    split_ifs <;> simp
  rw [List.count_eq_zero.mpr this]
  rfl

theorem tick_data (h : Heap) (s : StatusNotifier) : (tick h s).1.data = s.data := by
  cases hd : s.data with
  | none => rw [tick_without_data_aux h s hd, hd]
  | some d => rw [tick_eq h s d hd]; exact hd

theorem tick_updateJob (h : Heap) (s : StatusNotifier) (d : Nat) (hd : s.data = some d) :
    (tick h s).1.updateJob = (checkUpdateJob h s.updateJob).1 := by
  rw [tick_eq h s d hd]

theorem refresh_signal_tick (h : Heap) (s : StatusNotifier) (d : Nat) (hd : s.data = some d) :
    (tick h s).2.count Event.installStatusChanged +
        (tick h s).2.count Event.updateDisplayStatus ≤ 1 ∧
      (Event.installStatusChanged ∈ (tick h s).2 ↔
        ∃ inf ∈ s.watchList, (h.game inf).isWorking = false) ∧
      (Event.updateDisplayStatus ∈ (tick h s).2 ↔
        s.watchList ≠ [] ∧ ∀ inf ∈ s.watchList, (h.game inf).isWorking = true) ∧
      ((Event.installStatusChanged ∉ (tick h s).2 ∧
          Event.updateDisplayStatus ∉ (tick h s).2) ↔ s.watchList = []) := by
  have hf := count_full_tick h s d hd
  have hp := count_soft_tick h s d hd
  have mf : Event.installStatusChanged ∈ (tick h s).2 ↔
      0 < (tick h s).2.count Event.installStatusChanged := List.count_pos_iff.symm
  have mp : Event.updateDisplayStatus ∈ (tick h s).2 ↔
      0 < (tick h s).2.count Event.updateDisplayStatus := List.count_pos_iff.symm
  rw [mf, mp, hf, hp]
  cases ha : s.watchList.any (fun i => !(h.game i).isWorking)
  · have hall : ∀ x ∈ s.watchList, (h.game x).isWorking = true := by
      simpa using ha
    cases hw : s.watchList with
    | nil => simp
    | cons a w =>
      rw [hw] at hall
      simp only [List.isEmpty_cons]
      refine ⟨by simp, ?_, ?_, by simp⟩
      · constructor
        · intro hc; simp at hc
        · rintro ⟨x, hx, hx2⟩
          rw [hall x hx] at hx2
          cases hx2
      · simp only [ne_eq, reduceCtorEq, not_false_eq_true, true_and]
        constructor
        · intro _; exact hall
        · intro _; simp
  · obtain ⟨x, hx, hx2⟩ := List.any_eq_true.mp ha
    have hx3 : (h.game x).isWorking = false := by simpa using hx2
    have hne : s.watchList ≠ [] := List.ne_nil_of_mem hx
    refine ⟨by simp, ?_, ?_, ?_⟩
    · simp only [if_true, Nat.lt_one_iff, true_iff]
      exact ⟨x, hx, hx3⟩
    · simp only [if_true, Nat.lt_irrefl, false_iff, not_and]
      intro _ hall
      rw [hall x hx] at hx3
      cases hx3
    · simp [hne]

/-! ## Facts on `insertNode` -/

theorem insertNode_idem (inf : Nat) (w : List Nat) :
    insertNode inf (insertNode inf w) = insertNode inf w := by
  induction w with
  | nil => simp [insertNode]
  | cons x xs ih =>
    by_cases h1 : inf < x
    · simp [insertNode, h1]
    · by_cases h2 : inf = x
      · simp [insertNode, h2]
      · simp [insertNode, h1, h2, ih]

theorem mem_insertNode (inf a : Nat) (w : List Nat) :
    a ∈ insertNode inf w ↔ a = inf ∨ a ∈ w := by
  induction w with
  | nil => simp [insertNode]
  | cons x xs ih =>
    by_cases h1 : inf < x
    · simp [insertNode, h1]
    · by_cases h2 : inf = x
      · subst h2; simp [insertNode]
      · simp only [insertNode, h1, h2, if_false, List.mem_cons, ih]
        tauto

theorem ascending_insertNode (inf : Nat) (w : List Nat) (hw : ascending w) :
    ascending (insertNode inf w) := by
  unfold ascending at *
  induction w with
  | nil => simp [insertNode]
  | cons x xs ih =>
    have hx := List.pairwise_cons.mp hw
    by_cases h1 : inf < x
    · simp only [insertNode, h1, if_true]
      refine List.pairwise_cons.mpr ⟨?_, hw⟩
      intro a ha
      rcases List.mem_cons.mp ha with rfl | ha
      · exact h1
      · exact Nat.lt_trans h1 (hx.1 a ha)
    · by_cases h2 : inf = x
      · simp only [insertNode, h2, Nat.lt_irrefl, if_false, if_true]
        exact hw
      · simp only [insertNode, h1, h2, if_false]
        refine List.pairwise_cons.mpr ⟨?_, ih hx.2⟩
        intro a ha
        rcases (mem_insertNode inf a xs).mp ha with rfl | ha
        · omega
        · exact hx.1 a ha

theorem ascending_nodup (w : List Nat) (hw : ascending w) : w.Nodup := by
  unfold ascending at hw
  exact hw.imp (fun hab => Nat.ne_of_lt hab)

theorem count_insertNode (inf : Nat) (w : List Nat) (hw : ascending w) :
    (insertNode inf w).count inf = 1 :=
  List.count_eq_one_of_mem (ascending_nodup _ (ascending_insertNode inf w hw))
    ((mem_insertNode inf inf w).mpr (Or.inl rfl))

theorem ascending_tick (h : Heap) (s : StatusNotifier) (hw : ascending s.watchList) :
    ascending (tick h s).1.watchList := by
  cases hd : s.data with
  | none => rw [tick_without_data_aux h s hd]; exact hw
  | some d =>
    rw [tick_eq h s d hd]
    exact List.Pairwise.filter _ hw

/-! ## The three parts of the log of a tick -/

theorem tick_log (h : Heap) (s : StatusNotifier) (d : Nat) (hd : s.data = some d) :
    (tick h s).2 =
      (checkUpdateJob h s.updateJob).2 ++ s.watchList.flatMap (visitLog h) ++
        refreshLog h s.watchList := by
  rw [tick_eq h s d hd]

theorem tick_list (h : Heap) (s : StatusNotifier) (d : Nat) (hd : s.data = some d) :
    (tick h s).1.watchList = s.watchList.filter (fun i => (h.game i).isWorking) := by
  rw [tick_eq h s d hd]

theorem refreshLog_cases (h : Heap) (w : List Nat) :
    refreshLog h w = [] ∨ refreshLog h w = [Event.installStatusChanged] ∨
      refreshLog h w = [Event.updateDisplayStatus] := by
  unfold refreshLog
  split_ifs <;> simp

theorem reset_not_mem_visits (h : Heap) (w : List Nat) :
    Event.reset ∉ w.flatMap (visitLog h) := by
  intro hm
  obtain ⟨a, _, ha⟩ := List.mem_flatMap.mp hm
  unfold visitLog at ha
  split_ifs at ha <;> simp at ha

theorem slot_not_mem_refreshLog (h : Heap) (w : List Nat) :
    Event.updateReady ∉ refreshLog h w ∧ Event.reset ∉ refreshLog h w := by
  rcases refreshLog_cases h w with e | e | e <;> rw [e] <;> simp

theorem visitLog_congr (h1 h2 : Heap) (hg : h1.game = h2.game) : visitLog h1 = visitLog h2 := by
  funext inf
  unfold visitLog
  rw [hg]

theorem refreshLog_congr (h1 h2 : Heap) (hg : h1.game = h2.game) (w : List Nat) :
    refreshLog h1 w = refreshLog h2 w := by
  unfold refreshLog
  rw [hg]

theorem count_updateStatus (inf : Nat) (log : List Event) :
    log.count (Event.updateStatus inf) = (updated log).count inf := by
  induction log with
  | nil => rfl
  | cons e log ih =>
    rw [List.count_cons, ih]
    cases e <;> simp [updated, List.filterMap_cons, List.count_cons]

theorem checkUpdateJob_again (h : Heap) (u : Option Nat) :
    checkUpdateJob h (checkUpdateJob h u).1 = ((checkUpdateJob h u).1, []) := by
  cases u with
  | none => rfl
  | some j =>
    cases hf : (h.job j).isFinished <;> cases hs : (h.job j).isSuccess <;>
      simp [checkUpdateJob, hf, hs]

theorem front_reads (h : Heap) (u : Option Nat) (w : List Nat) :
    Event.installStatusChanged ∉ (checkUpdateJob h u).2 ++ w.flatMap (visitLog h) ∧
      Event.updateDisplayStatus ∉ (checkUpdateJob h u).2 ++ w.flatMap (visitLog h) ∧
      polled ((checkUpdateJob h u).2 ++ w.flatMap (visitLog h)) = w ∧
      updated ((checkUpdateJob h u).2 ++ w.flatMap (visitLog h)) = w := by
  refine ⟨?_, ?_, ?_, ?_⟩
  · intro hm
    rcases List.mem_append.mp hm with hm | hm
    · exact (signal_not_mem_checkUpdateJob h u).1 hm
    · exact (signal_not_mem_visits h w).2.1 hm
  · intro hm
    rcases List.mem_append.mp hm with hm | hm
    · exact (signal_not_mem_checkUpdateJob h u).2 hm
    · exact (signal_not_mem_visits h w).2.2 hm
  · rw [polled_append, (checkUpdateJob_reads h u).1, polled_visits]
    rfl
  · rw [updated_append, (checkUpdateJob_reads h u).2.2.2, updated_visits]
    rfl

theorem rest_reads (h : Heap) (w : List Nat) :
    Event.updateReady ∉ w.flatMap (visitLog h) ++ refreshLog h w ∧
      Event.reset ∉ w.flatMap (visitLog h) ++ refreshLog h w ∧
      polled (w.flatMap (visitLog h) ++ refreshLog h w) = w ∧
      updated (w.flatMap (visitLog h) ++ refreshLog h w) = w := by
  refine ⟨?_, ?_, ?_, ?_⟩
  · intro hm
    rcases List.mem_append.mp hm with hm | hm
    · exact (signal_not_mem_visits h w).1 hm
    · exact (slot_not_mem_refreshLog h w).1 hm
  · intro hm
    rcases List.mem_append.mp hm with hm | hm
    · exact reset_not_mem_visits h w hm
    · exact (slot_not_mem_refreshLog h w).2 hm
  · rw [polled_append, (refreshLog_reads h w).1, polled_visits, List.append_nil]
  · rw [updated_append, (refreshLog_reads h w).2.2.2, updated_visits, List.append_nil]

/-! ## Runs of several ticks -/

theorem tick_again (h : Heap) (s : StatusNotifier) (d : Nat) (hd : s.data = some d) :
    tick h (tick h s).1 =
      ((tick h s).1,
        (tick h s).1.watchList.flatMap (fun i => [Event.isWorking i, Event.updateStatus i]) ++
          (if (tick h s).1.watchList.isEmpty then [] else [Event.updateDisplayStatus])) := by
  have hd1 : (tick h s).1.data = some d := by rw [tick_data, hd]
  have hall : ∀ x ∈ (tick h s).1.watchList, (h.game x).isWorking = true := by
    intro x hx
    rw [tick_list h s d hd] at hx
    exact (List.mem_filter.mp hx).2
  have hu : checkUpdateJob h (tick h s).1.updateJob = ((tick h s).1.updateJob, []) := by
    rw [tick_updateJob h s d hd]
    exact checkUpdateJob_again h s.updateJob
  have hv : (tick h s).1.watchList.flatMap (visitLog h) =
      (tick h s).1.watchList.flatMap (fun i => [Event.isWorking i, Event.updateStatus i]) := by
    apply List.flatMap_congr
    intro x hx
    simp [visitLog, hall x hx]
  have hany : (tick h s).1.watchList.any (fun i => !(h.game i).isWorking) = false := by
    apply List.any_eq_false.mpr
    intro x hx
    simp [hall x hx]
  rw [tick_eq h (tick h s).1 d hd1, hu, List.filter_eq_self.mpr hall, hv]
  unfold refreshLog
  rw [hany]
  rfl

theorem mayBecome_refl (s : StatusNotifier) : mayBecome s s :=
  ⟨rfl, fun _ hi => hi⟩

theorem mayBecome_add (s : StatusNotifier) (inf : Nat) : mayBecome s (add s inf) :=
  ⟨rfl, fun a ha => (mem_insertNode inf a s.watchList).mpr (Or.inr ha)⟩

theorem mayBecome_set (s : StatusNotifier) (u : Option Nat) :
    mayBecome s { s with updateJob := u } :=
  ⟨rfl, fun _ hi => hi⟩

theorem mayBecome_trans (s t u : StatusNotifier) (h1 : mayBecome s t) (h2 : mayBecome t u) :
    mayBecome s u :=
  ⟨h2.1.trans h1.1, fun a ha => h2.2 a (h1.2 a ha)⟩

theorem round_of_working (r : Round) (d p : Nat) (hd : r.start.data = some d)
    (hp : p ∈ r.start.watchList) (hw : (r.heap.game p).isWorking = true) :
    p ∈ r.run.1.watchList ∧ r.run.1.data = some d ∧
      r.run.2.count Event.installStatusChanged +
        r.run.2.count Event.updateDisplayStatus = 1 ∧
      (Event.installStatusChanged ∈ r.run.2 ∨ Event.updateDisplayStatus ∈ r.run.2) ∧
      (Event.installStatusChanged ∈ r.run.2 ↔
        ∃ q ∈ r.start.watchList, q ≠ p ∧ (r.heap.game q).isWorking = false) ∧
      (Event.updateDisplayStatus ∈ r.run.2 ↔
        ∀ q ∈ r.start.watchList, (r.heap.game q).isWorking = true) := by
  unfold Round.run
  have hsig := refresh_signal_tick r.heap r.start d hd
  have hemp : r.start.watchList.isEmpty = false := by
    cases hl : r.start.watchList with
    | nil => rw [hl] at hp; cases hp
    | cons a w => rfl
  have hc : (tick r.heap r.start).2.count Event.installStatusChanged +
      (tick r.heap r.start).2.count Event.updateDisplayStatus = 1 := by
    rw [count_full_tick r.heap r.start d hd, count_soft_tick r.heap r.start d hd, hemp]
    cases r.start.watchList.any (fun i => !(r.heap.game i).isWorking) <;> simp
  refine ⟨?_, ?_, hc, ?_, ?_, ?_⟩
  · rw [tick_list r.heap r.start d hd]
    exact List.mem_filter.mpr ⟨hp, hw⟩
  · rw [tick_data, hd]
  · rw [← List.count_pos_iff, ← List.count_pos_iff]
    omega
  · rw [hsig.2.1]
    constructor
    · rintro ⟨q, hq, hq2⟩
      refine ⟨q, hq, ?_, hq2⟩
      rintro rfl
      rw [hw] at hq2
      cases hq2
    · rintro ⟨q, hq, _, hq2⟩
      exact ⟨q, hq, hq2⟩
  · rw [hsig.2.2.1]
    constructor
    · exact fun hx => hx.2
    · exact fun hx => ⟨List.ne_nil_of_mem hp, hx⟩

theorem signal_count_of_mem (h : Heap) (s : StatusNotifier) (d p : Nat)
    (hd : s.data = some d) (hp : p ∈ s.watchList) :
    (tick h s).2.count Event.installStatusChanged +
      (tick h s).2.count Event.updateDisplayStatus = 1 := by
  have hemp : s.watchList.isEmpty = false := by
    cases hl : s.watchList with
    | nil => rw [hl] at hp; cases hp
    | cons a w => rfl
  rw [count_full_tick h s d hd, count_soft_tick h s d hd, hemp]
  cases s.watchList.any (fun i => !(h.game i).isWorking) <;> simp

theorem mem_errors (q : Nat) (m : String) (log : List Event) :
    (q, m) ∈ errors log ↔ Event.error q m ∈ log := by
  induction log with
  | nil => simp [errors]
  | cons e log ih =>
    unfold errors at ih ⊢
    cases e <;> simp [List.filterMap_cons, ih]

theorem tick_congr (h1 h2 : Heap) (s : StatusNotifier) (hj : h1.job = h2.job)
    (hw : ∀ q ∈ s.watchList, (h1.game q).isWorking = (h2.game q).isWorking)
    (hv : ∀ q ∈ s.watchList, visitLog h1 q = visitLog h2 q) :
    tick h1 s = tick h2 s := by
  cases hd : s.data with
  | none => rw [tick_without_data_aux h1 s hd, tick_without_data_aux h2 s hd]
  | some d =>
    have hu : checkUpdateJob h1 s.updateJob = checkUpdateJob h2 s.updateJob := by
      unfold checkUpdateJob
      rw [hj]
    have hf : s.watchList.filter (fun i => (h1.game i).isWorking) =
        s.watchList.filter (fun i => (h2.game i).isWorking) :=
      List.filter_congr hw
    have hr : refreshLog h1 s.watchList = refreshLog h2 s.watchList := by
      have hany : s.watchList.any (fun i => !(h1.game i).isWorking) =
          s.watchList.any (fun i => !(h2.game i).isWorking) := by
        rw [Bool.eq_iff_iff, List.any_eq_true, List.any_eq_true]
        constructor
        · rintro ⟨x, hx, hx2⟩
          exact ⟨x, hx, by rw [← hw x hx]; exact hx2⟩
        · rintro ⟨x, hx, hx2⟩
          exact ⟨x, hx, by rw [hw x hx]; exact hx2⟩
      unfold refreshLog
      rw [hany]
    rw [tick_eq h1 s d hd, tick_eq h2 s d hd, hu, hf, hr, List.flatMap_congr hv]

/-! ## Theorems -/

/-- C1: with no `data` pointer set, one tick returns the notifier unchanged (same watch
list, same update job slot) and its log is empty: no full or partial refresh, no
`updateReady`, no error box, no `updateStatus` call, whatever the slot and the watch list
hold. -/
theorem tick_without_data (h : Heap) (s : StatusNotifier) (hd : s.data = none) :
    tick h s = (s, []) := by
  unfold tick
  rw [hd]

/-- C1, witness: a notifier without `data` whose slot holds the succeeded job 7 and whose
watch list holds the failed game 2 and the finished game 3. -/
theorem tick_without_data_witness :
    (detached (some 7) [2, 3]).data = none ∧
      tick sampleHeap (detached (some 7) [2, 3]) = (detached (some 7) [2, 3], []) :=
  ⟨rfl, tick_without_data sampleHeap (detached (some 7) [2, 3]) rfl⟩

/-- C2: with `data` set, one tick makes at most one refresh call in total; the full
refresh is in the log exactly when some game of the watch list is no longer working, the
partial refresh exactly when the watch list is not empty and all its games are working,
and neither exactly when the watch list is empty. -/
theorem tick_refresh_signal (h : Heap) (s : StatusNotifier) (d : Nat) (hd : s.data = some d) :
    (tick h s).2.count Event.installStatusChanged +
        (tick h s).2.count Event.updateDisplayStatus ≤ 1 ∧
      (Event.installStatusChanged ∈ (tick h s).2 ↔
        ∃ inf ∈ s.watchList, (h.game inf).isWorking = false) ∧
      (Event.updateDisplayStatus ∈ (tick h s).2 ↔
        s.watchList ≠ [] ∧ ∀ inf ∈ s.watchList, (h.game inf).isWorking = true) ∧
      ((Event.installStatusChanged ∉ (tick h s).2 ∧
          Event.updateDisplayStatus ∉ (tick h s).2) ↔ s.watchList = []) :=
  refresh_signal_tick h s d hd

/-- C2, witness: the watch list holds the working game 1 and the failed game 2. -/
theorem tick_refresh_signal_witness :
    (attached none [1, 2]).data = some 100 ∧
      (tick sampleHeap (attached none [1, 2])).2.count Event.installStatusChanged +
        (tick sampleHeap (attached none [1, 2])).2.count Event.updateDisplayStatus ≤ 1 ∧
      Event.installStatusChanged ∈ (tick sampleHeap (attached none [1, 2])).2 :=
  ⟨rfl, (tick_refresh_signal sampleHeap (attached none [1, 2]) 100 rfl).1,
    (tick_refresh_signal sampleHeap (attached none [1, 2]) 100 rfl).2.1.mpr
      ⟨2, by decide, by decide⟩⟩

/-- C3: with `data` set, the error boxes of one tick are, in order, exactly one box per
game of the watch list that is no longer working and whose status is an error, each with
that game's message, and none for any other game (when the list has no repeated node, the
box of each such game occurs exactly once); such a game is removed from the watch list,
the full refresh is made and its box is raised, and when it is the only game of the list
the list is left empty and its box is the only one; and every game of the list is polled
and gets its `updateStatus` call, whether or not a game before it raised a box. -/
theorem tick_reports_errors (h : Heap) (s : StatusNotifier) (d : Nat) (hd : s.data = some d) :
    errors (tick h s).2 =
        (s.watchList.filter (failedGame h)).map
          (fun i => (i, (h.game i).getStatus.getMessage)) ∧
      (s.watchList.Nodup → ∀ inf ∈ s.watchList, failedGame h inf = true →
        (errors (tick h s).2).count (inf, (h.game inf).getStatus.getMessage) = 1) ∧
      (∀ p ∈ s.watchList, (h.game p).isWorking = false →
        (h.game p).getStatus.isError = true →
          p ∉ (tick h s).1.watchList ∧ Event.installStatusChanged ∈ (tick h s).2 ∧
            (p, (h.game p).getStatus.getMessage) ∈ errors (tick h s).2 ∧
            (s.watchList = [p] → (tick h s).1.watchList = [] ∧
              errors (tick h s).2 = [(p, (h.game p).getStatus.getMessage)])) ∧
      polled (tick h s).2 = s.watchList ∧ updated (tick h s).2 = s.watchList := by
  refine ⟨errors_tick h s d hd, ?_, ?_, polled_tick h s d hd, updated_tick h s d hd⟩
  · intro hn inf hin hfail
    rw [errors_tick h s d hd, count_box, List.count_filter hfail]
    exact List.count_eq_one_of_mem hn hin
  · intro p hp hwork herr
    have hfail : failedGame h p = true := by simp [failedGame, hwork, herr]
    refine ⟨?_, ?_, ?_, ?_⟩
    · rw [tick_eq h s d hd]
      simp [hwork]
    · exact (refresh_signal_tick h s d hd).2.1.mpr ⟨p, hp, hwork⟩
    · rw [errors_tick h s d hd]
      exact List.mem_map.mpr ⟨p, List.mem_filter.mpr ⟨hp, hfail⟩, rfl⟩
    · intro hw
      constructor
      · rw [tick_eq h s d hd]
        simp [hw, hwork]
      · rw [errors_tick h s d hd]
        simp [hw, hfail]

/-- C3, witness: the failed game 2 between the working game 1 and the finished game 3;
and the failed game 2 alone. -/
theorem tick_reports_errors_witness :
    (attached none [1, 2, 3]).data = some 100 ∧
      errors (tick sampleHeap (attached none [1, 2, 3])).2 = [(2, "disk full")] ∧
      (errors (tick sampleHeap (attached none [1, 2, 3])).2).count (2, "disk full") = 1 ∧
      updated (tick sampleHeap (attached none [1, 2, 3])).2 = [1, 2, 3] ∧
      ((tick sampleHeap (attached none [2])).1.watchList = [] ∧
        errors (tick sampleHeap (attached none [2])).2 = [(2, "disk full")]) :=
  ⟨rfl, (tick_reports_errors sampleHeap (attached none [1, 2, 3]) 100 rfl).1,
    (tick_reports_errors sampleHeap (attached none [1, 2, 3]) 100 rfl).2.1 (by decide) 2
      (by decide) (by decide),
    (tick_reports_errors sampleHeap (attached none [1, 2, 3]) 100 rfl).2.2.2.2,
    ((tick_reports_errors sampleHeap (attached none [2]) 100 rfl).2.2.1 2 (by decide)
      (by decide) (by decide)).2.2.2 rfl⟩

/-- C4: with `data` set, if the game `p` of the watch list has finished with success and
every other game of the list is working, then after one tick `p` is not in the list, every
other game of the list still is (the list is the old one without `p`), the full refresh is
made, the partial refresh is not, and no error box is raised. -/
theorem tick_one_finished (h : Heap) (s : StatusNotifier) (d p : Nat) (hd : s.data = some d)
    (hp : p ∈ s.watchList) (hfin : (h.game p).isWorking = false)
    (hsucc : (h.game p).getStatus.isSuccess = true)
    (hrest : ∀ q ∈ s.watchList, q ≠ p → (h.game q).isWorking = true) :
    p ∉ (tick h s).1.watchList ∧
      (∀ q ∈ s.watchList, q ≠ p → q ∈ (tick h s).1.watchList) ∧
      (tick h s).1.watchList = s.watchList.filter (fun q => decide (q ≠ p)) ∧
      Event.installStatusChanged ∈ (tick h s).2 ∧
      Event.updateDisplayStatus ∉ (tick h s).2 ∧
      errors (tick h s).2 = [] := by
  have hw : (tick h s).1.watchList = s.watchList.filter (fun i => (h.game i).isWorking) := by
    rw [tick_eq h s d hd]
  have hnerr : (h.game p).getStatus.isError = false := by
    unfold JobInfo.isSuccess at hsucc
    unfold JobInfo.isError
    cases hst : (h.game p).getStatus.status <;> simp [hst] at hsucc ⊢
  refine ⟨?_, ?_, ?_, ?_, ?_, ?_⟩
  · rw [hw]
    simp [hfin]
  · intro q hq hne
    rw [hw]
    exact List.mem_filter.mpr ⟨hq, hrest q hq hne⟩
  · rw [hw]
    apply List.filter_congr
    intro q hq
    by_cases hqp : q = p
    · subst hqp; simp [hfin]
    · simp [hqp, hrest q hq hqp]
  · exact (refresh_signal_tick h s d hd).2.1.mpr ⟨p, hp, hfin⟩
  · intro hc
    have hall := ((refresh_signal_tick h s d hd).2.2.1.mp hc).2 p hp
    rw [hfin] at hall
    cases hall
  · rw [errors_tick h s d hd]
    have : s.watchList.filter (failedGame h) = [] := by
      apply List.filter_eq_nil_iff.mpr
      intro q hq
      by_cases hqp : q = p
      · subst hqp; simp [failedGame, hnerr]
      · simp [failedGame, hrest q hq hqp]
    rw [this]
    rfl

/-- C4, witness: the finished game 3 among the working games 1, 5 and 6. -/
theorem tick_one_finished_witness :
    (attached none [1, 3, 5, 6]).data = some 100 ∧ 3 ∈ (attached none [1, 3, 5, 6]).watchList ∧
      (tick sampleHeap (attached none [1, 3, 5, 6])).1.watchList = [1, 5, 6] ∧
      Event.installStatusChanged ∈ (tick sampleHeap (attached none [1, 3, 5, 6])).2 ∧
      Event.updateDisplayStatus ∉ (tick sampleHeap (attached none [1, 3, 5, 6])).2 ∧
      errors (tick sampleHeap (attached none [1, 3, 5, 6])).2 = [] :=
  ⟨rfl, by decide,
    (tick_one_finished sampleHeap (attached none [1, 3, 5, 6]) 100 3 rfl (by decide) (by decide)
      (by decide) (by decide)).2.2.1,
    (tick_one_finished sampleHeap (attached none [1, 3, 5, 6]) 100 3 rfl (by decide) (by decide)
      (by decide) (by decide)).2.2.2⟩

/-- C5, as stated, fails for N = 0: with `data` set and an empty watch list (all of its
zero games are working) the tick makes no partial refresh; its log is empty. -/
theorem tick_all_working_counterexample :
    (attached none []).data = some 100 ∧
      (∀ inf ∈ (attached none []).watchList, (sampleHeap.game inf).isWorking = true) ∧
      (tick sampleHeap (attached none [])).1.watchList = (attached none []).watchList ∧
      Event.updateDisplayStatus ∉ (tick sampleHeap (attached none [])).2 ∧
      (tick sampleHeap (attached none [])).2 = [] := by
  decide

/-- C5, amended: with `data` set, for a watch list of N ≥ 1 games that are all working,
one tick leaves the watch list as it was (all N games remain), makes the partial refresh
exactly once, makes no full refresh and raises no error box. -/
theorem tick_all_working (h : Heap) (s : StatusNotifier) (d : Nat) (hd : s.data = some d)
    (hne : 1 ≤ s.watchList.length)
    (hall : ∀ inf ∈ s.watchList, (h.game inf).isWorking = true) :
    (tick h s).1.watchList = s.watchList ∧
      (tick h s).1.watchList.length = s.watchList.length ∧
      (tick h s).2.count Event.updateDisplayStatus = 1 ∧
      Event.installStatusChanged ∉ (tick h s).2 ∧
      errors (tick h s).2 = [] := by
  have hw : (tick h s).1.watchList = s.watchList := by
    rw [tick_eq h s d hd]
    exact List.filter_eq_self.mpr hall
  have hany : s.watchList.any (fun i => !(h.game i).isWorking) = false := by
    apply List.any_eq_false.mpr
    intro x hx
    simp [hall x hx]
  have hemp : s.watchList.isEmpty = false := by
    cases hl : s.watchList with
    | nil => rw [hl] at hne; simp at hne
    | cons a w => rfl
  refine ⟨hw, by rw [hw], ?_, ?_, ?_⟩
  · rw [count_soft_tick h s d hd, hany, hemp]
    simp
  · intro hc
    obtain ⟨x, hx, hx2⟩ := (refresh_signal_tick h s d hd).2.1.mp hc
    rw [hall x hx] at hx2
    cases hx2
  · rw [errors_tick h s d hd]
    have : s.watchList.filter (failedGame h) = [] := by
      apply List.filter_eq_nil_iff.mpr
      intro q hq
      simp [failedGame, hall q hq]
    rw [this]
    rfl

/-- C5, witness: the three working games 1, 5 and 6. -/
theorem tick_all_working_witness :
    (attached none [1, 5, 6]).data = some 100 ∧ 1 ≤ (attached none [1, 5, 6]).watchList.length ∧
      (tick sampleHeap (attached none [1, 5, 6])).1.watchList = [1, 5, 6] ∧
      (tick sampleHeap (attached none [1, 5, 6])).2.count Event.updateDisplayStatus = 1 :=
  ⟨rfl, by decide,
    (tick_all_working sampleHeap (attached none [1, 5, 6]) 100 rfl (by decide) (by decide)).1,
    (tick_all_working sampleHeap (attached none [1, 5, 6]) 100 rfl (by decide)
      (by decide)).2.2.1⟩

/-- C6: with `data` set, if the update job slot holds a job that is finished and
succeeded, one tick empties the slot and calls `updateReady` exactly once; a second tick
run right after it, whatever the jobs and games answer then, finds the slot empty (the
check of the slot returns the empty slot and makes no call), calls `updateReady` zero
times and leaves the slot empty. -/
theorem tick_update_job_success (h h2 : Heap) (s : StatusNotifier) (d j : Nat)
    (hd : s.data = some d) (hj : s.updateJob = some j)
    (hfin : (h.job j).isFinished = true) (hsucc : (h.job j).isSuccess = true) :
    (tick h s).1.updateJob = none ∧
      (tick h s).2.count Event.updateReady = 1 ∧
      checkUpdateJob h2 (tick h s).1.updateJob = (none, []) ∧
      (tick h2 (tick h s).1).2.count Event.updateReady = 0 ∧
      (tick h2 (tick h s).1).1.updateJob = none := by
  have hc : checkUpdateJob h s.updateJob = (none, [Event.updateReady, Event.reset]) := by
    simp [checkUpdateJob, hj, hfin, hsucc]
  have h1 : (tick h s).1.updateJob = none := by
    rw [tick_updateJob h s d hd, hc]
  have hd1 : (tick h s).1.data = some d := by
    rw [tick_data, hd]
  have hc2 : checkUpdateJob h2 (tick h s).1.updateJob = (none, []) := by
    rw [h1]; rfl
  refine ⟨h1, ?_, hc2, ?_, ?_⟩
  · rw [count_ready_tick h s d hd, hc]
    simp
  · rw [count_ready_tick h2 _ d hd1, hc2]
    simp
  · rw [tick_updateJob h2 _ d hd1, hc2]

/-- C6, witness: the slot holds the succeeded job 7, both ticks run on the sample heap. -/
theorem tick_update_job_success_witness :
    (attached (some 7) [1, 2]).data = some 100 ∧
      (attached (some 7) [1, 2]).updateJob = some 7 ∧
      (sampleHeap.job 7).isFinished = true ∧ (sampleHeap.job 7).isSuccess = true ∧
      (tick sampleHeap (attached (some 7) [1, 2])).1.updateJob = none ∧
      (tick sampleHeap (attached (some 7) [1, 2])).2.count Event.updateReady = 1 ∧
      (tick sampleHeap (tick sampleHeap (attached (some 7) [1, 2])).1).2.count
        Event.updateReady = 0 :=
  ⟨rfl, rfl, by decide, by decide,
    (tick_update_job_success sampleHeap sampleHeap (attached (some 7) [1, 2]) 100 7 rfl rfl
      (by decide) (by decide)).1,
    (tick_update_job_success sampleHeap sampleHeap (attached (some 7) [1, 2]) 100 7 rfl rfl
      (by decide) (by decide)).2.1,
    (tick_update_job_success sampleHeap sampleHeap (attached (some 7) [1, 2]) 100 7 rfl rfl
      (by decide) (by decide)).2.2.2.1⟩

/-- C7: with `data` set, if the update job slot holds a job that is finished and did not
succeed (it failed or was aborted), one tick empties the slot, does not call `updateReady`
and raises no error box for that job: the boxes of the tick are exactly those of the games
of the watch list that finished with an error, so with an empty watch list there is none
(the whole log is then the reset of the slot). -/
theorem tick_update_job_failure (h : Heap) (s : StatusNotifier) (d j : Nat)
    (hd : s.data = some d) (hj : s.updateJob = some j)
    (hfin : (h.job j).isFinished = true) (hfail : (h.job j).isSuccess = false) :
    (tick h s).1.updateJob = none ∧
      Event.updateReady ∉ (tick h s).2 ∧
      errors (tick h s).2 =
        (s.watchList.filter (failedGame h)).map
          (fun i => (i, (h.game i).getStatus.getMessage)) ∧
      (s.watchList = [] → errors (tick h s).2 = [] ∧ (tick h s).2 = [Event.reset]) := by
  have hc : checkUpdateJob h s.updateJob = (none, [Event.reset]) := by
    simp [checkUpdateJob, hj, hfin, hfail]
  refine ⟨?_, ?_, errors_tick h s d hd, ?_⟩
  · rw [tick_updateJob h s d hd, hc]
  · rw [← List.count_eq_zero, count_ready_tick h s d hd, hc]
    simp
  · intro hw
    constructor
    · rw [errors_tick h s d hd, hw]
      rfl
    · rw [tick_eq h s d hd, hc, hw]
      simp [refreshLog]

/-- C7, witness: the slot holds the failed job 8 and the watch list is empty. -/
theorem tick_update_job_failure_witness :
    (attached (some 8) []).data = some 100 ∧ (attached (some 8) []).updateJob = some 8 ∧
      (sampleHeap.job 8).isFinished = true ∧ (sampleHeap.job 8).isSuccess = false ∧
      (tick sampleHeap (attached (some 8) [])).1.updateJob = none ∧
      Event.updateReady ∉ (tick sampleHeap (attached (some 8) [])).2 ∧
      errors (tick sampleHeap (attached (some 8) [])).2 = [] :=
  ⟨rfl, rfl, by decide, by decide,
    (tick_update_job_failure sampleHeap (attached (some 8) []) 100 8 rfl rfl (by decide)
      (by decide)).1,
    (tick_update_job_failure sampleHeap (attached (some 8) []) 100 8 rfl rfl (by decide)
      (by decide)).2.1,
    ((tick_update_job_failure sampleHeap (attached (some 8) []) 100 8 rfl rfl (by decide)
      (by decide)).2.2.2 rfl).1⟩

/-- C8: with `data` set, if the update job slot is empty or holds a job that is not
finished, one tick leaves the slot as it was (an empty slot stays empty, a pending job
stays in the slot under the same handle), does not call `updateReady` and does not reset
the slot. -/
theorem tick_update_job_pending (h : Heap) (s : StatusNotifier) (d : Nat)
    (hd : s.data = some d)
    (hslot : s.updateJob = none ∨ ∃ j, s.updateJob = some j ∧ (h.job j).isFinished = false) :
    (tick h s).1.updateJob = s.updateJob ∧
      Event.updateReady ∉ (tick h s).2 ∧
      Event.reset ∉ (tick h s).2 := by
  have hc : checkUpdateJob h s.updateJob = (s.updateJob, []) := by
    rcases hslot with hn | ⟨j, hj, hfin⟩
    · simp [checkUpdateJob, hn]
    · simp [checkUpdateJob, hj, hfin]
  refine ⟨?_, ?_, ?_⟩
  · rw [tick_updateJob h s d hd, hc]
  · rw [← List.count_eq_zero, count_ready_tick h s d hd, hc]
    simp
  · rw [tick_eq h s d hd, hc]
    intro hm
    simp only [List.nil_append, List.mem_append] at hm
    rcases hm with hm | hm
    · obtain ⟨a, _, ha⟩ := List.mem_flatMap.mp hm
      unfold visitLog at ha
      split_ifs at ha <;> simp at ha
    · unfold refreshLog at hm
      split_ifs at hm <;> simp at hm

/-- C8, witness: the slot holds the running job 9. -/
theorem tick_update_job_pending_witness :
    (attached (some 9) [1, 2]).data = some 100 ∧
      ((attached (some 9) [1, 2]).updateJob = none ∨
        ∃ j, (attached (some 9) [1, 2]).updateJob = some j ∧
          (sampleHeap.job j).isFinished = false) ∧
      (tick sampleHeap (attached (some 9) [1, 2])).1.updateJob = some 9 ∧
      Event.updateReady ∉ (tick sampleHeap (attached (some 9) [1, 2])).2 ∧
      Event.reset ∉ (tick sampleHeap (attached (some 9) [1, 2])).2 :=
  ⟨rfl, Or.inr ⟨9, rfl, by decide⟩,
    tick_update_job_pending sampleHeap (attached (some 9) [1, 2]) 100 rfl
      (Or.inr ⟨9, rfl, by decide⟩)⟩

/-- C9: with `data` set, the watch list after one tick is exactly the old watch list
restricted to the games that answered `isWorking()` with true, in the old order: a game is
in the new list if and only if it was in the old one and is working, so every finished
game is removed, every working game is kept and no game from outside the old list is
added; each game of the old list is polled once, and the erased nodes are exactly the
finished games. -/
theorem tick_watchList (h : Heap) (s : StatusNotifier) (d : Nat) (hd : s.data = some d) :
    (tick h s).1.watchList = s.watchList.filter (fun inf => (h.game inf).isWorking) ∧
      (∀ inf, inf ∈ (tick h s).1.watchList ↔
        inf ∈ s.watchList ∧ (h.game inf).isWorking = true) ∧
      (∀ inf ∈ s.watchList, (h.game inf).isWorking = false → inf ∉ (tick h s).1.watchList) ∧
      (∀ inf ∈ s.watchList, (h.game inf).isWorking = true → inf ∈ (tick h s).1.watchList) ∧
      (∀ inf ∈ (tick h s).1.watchList, inf ∈ s.watchList) ∧
      polled (tick h s).2 = s.watchList ∧
      erased (tick h s).2 = s.watchList.filter (fun inf => !(h.game inf).isWorking) := by
  have hw : (tick h s).1.watchList = s.watchList.filter (fun i => (h.game i).isWorking) := by
    rw [tick_eq h s d hd]
  refine ⟨hw, ?_, ?_, ?_, ?_, polled_tick h s d hd, erased_tick h s d hd⟩
  · intro inf
    rw [hw, List.mem_filter]
  · intro inf _ hfin hm
    rw [hw, List.mem_filter, hfin] at hm
    cases hm.2
  · intro inf hin hwork
    rw [hw]
    exact List.mem_filter.mpr ⟨hin, hwork⟩
  · intro inf hm
    rw [hw] at hm
    exact (List.mem_filter.mp hm).1

/-- C9, witness: of the games 1, 2, 3, 5 the working ones, 1 and 5, remain. -/
theorem tick_watchList_witness :
    (attached none [1, 2, 3, 5]).data = some 100 ∧
      (tick sampleHeap (attached none [1, 2, 3, 5])).1.watchList = [1, 5] ∧
      erased (tick sampleHeap (attached none [1, 2, 3, 5])).2 = [2, 3] :=
  ⟨rfl, (tick_watchList sampleHeap (attached none [1, 2, 3, 5]) 100 rfl).1,
    (tick_watchList sampleHeap (attached none [1, 2, 3, 5]) 100 rfl).2.2.2.2.2.2⟩

/-- C10: for a notifier with `data` set whose watch list is a set (strictly ascending
nodes), adding the game `inf` twice gives the same notifier as adding it once, and `inf`
then occurs exactly once in the watch list; if `inf` is no longer working, the tick that
follows polls it once, erases it once, calls `updateStatus` on it once, leaves it out of
the watch list and, if its status is an error, raises exactly one error box for it, with
its message. -/
theorem add_twice_then_tick (h : Heap) (s : StatusNotifier) (d inf : Nat)
    (hd : s.data = some d) (hw : ascending s.watchList) :
    add (add s inf) inf = add s inf ∧
      (add (add s inf) inf).watchList.count inf = 1 ∧
      ((h.game inf).isWorking = false →
        (polled (tick h (add (add s inf) inf)).2).count inf = 1 ∧
          (erased (tick h (add (add s inf) inf)).2).count inf = 1 ∧
          (updated (tick h (add (add s inf) inf)).2).count inf = 1 ∧
          inf ∉ (tick h (add (add s inf) inf)).1.watchList ∧
          ((h.game inf).getStatus.isError = true →
            (errors (tick h (add (add s inf) inf)).2).filter (fun e => decide (e.1 = inf)) =
              [(inf, (h.game inf).getStatus.getMessage)])) := by
  have hidem : add (add s inf) inf = add s inf := by
    simp [add, insertNode_idem]
  have hd1 : (add s inf).data = some d := hd
  have hcount : (add s inf).watchList.count inf = 1 := count_insertNode inf s.watchList hw
  rw [hidem]
  refine ⟨rfl, hcount, ?_⟩
  intro hfin
  refine ⟨?_, ?_, ?_, ?_, ?_⟩
  · rw [polled_tick h _ d hd1, hcount]
  · rw [erased_tick h _ d hd1, List.count_filter (by simp [hfin]), hcount]
  · rw [updated_tick h _ d hd1, hcount]
  · rw [tick_eq h _ d hd1]
    simp [hfin]
  · intro herr
    rw [errors_tick h _ d hd1, List.filter_map, List.filter_filter]
    have hf : (add s inf).watchList.filter
        (fun a => ((fun e : Nat × String => decide (e.1 = inf)) ∘
          fun i => (i, (h.game i).getStatus.getMessage)) a && failedGame h a) =
        (add s inf).watchList.filter (fun a => a == inf) := by
      apply List.filter_congr
      intro a _
      by_cases ha : a = inf
      · subst ha; simp [failedGame, hfin, herr]
      · simp [ha]
    rw [hf, List.filter_beq, hcount]
    rfl

/-- C10, witness: the failed game 2 is added twice to the watch list 1, 3. -/
theorem add_twice_then_tick_witness :
    (attached none [1, 3]).data = some 100 ∧ ascending (attached none [1, 3]).watchList ∧
      (sampleHeap.game 2).isWorking = false ∧ (sampleHeap.game 2).getStatus.isError = true ∧
      add (add (attached none [1, 3]) 2) 2 = add (attached none [1, 3]) 2 ∧
      (add (add (attached none [1, 3]) 2) 2).watchList.count 2 = 1 ∧
      (erased (tick sampleHeap (add (add (attached none [1, 3]) 2) 2)).2).count 2 = 1 ∧
      (errors (tick sampleHeap (add (add (attached none [1, 3]) 2) 2)).2).filter
        (fun e => decide (e.1 = 2)) = [(2, "disk full")] :=
  ⟨rfl, by unfold ascending; decide, by decide, by decide,
    (add_twice_then_tick sampleHeap (attached none [1, 3]) 100 2 rfl
      (by unfold ascending; decide)).1,
    (add_twice_then_tick sampleHeap (attached none [1, 3]) 100 2 rfl
      (by unfold ascending; decide)).2.1,
    ((add_twice_then_tick sampleHeap (attached none [1, 3]) 100 2 rfl
      (by unfold ascending; decide)).2.2 (by decide)).2.1,
    ((add_twice_then_tick sampleHeap (attached none [1, 3]) 100 2 rfl
      (by unfold ascending; decide)).2.2 (by decide)).2.2.2.2 (by decide)⟩

/-- C11: take two notifiers with `data` set and the same watch list, and two heaps in
which the games answer the same; the update job slots and the jobs may differ. Then one
tick leaves the same watch list, raises the same error boxes and makes the same refresh
call (full, partial or none) in both: the two logs differ only in the part written while
looking at the slot. And whenever the slot holds a finished job that succeeded,
`updateReady` is called exactly once, also when the watch list is empty and neither
refresh is made. -/
theorem tick_slot_independent (h1 h2 : Heap) (s1 s2 : StatusNotifier) (d1 d2 : Nat)
    (hd1 : s1.data = some d1) (hd2 : s2.data = some d2)
    (hw : s1.watchList = s2.watchList) (hg : h1.game = h2.game) :
    (tick h1 s1).1.watchList = (tick h2 s2).1.watchList ∧
      errors (tick h1 s1).2 = errors (tick h2 s2).2 ∧
      (tick h1 s1).2.count Event.installStatusChanged =
        (tick h2 s2).2.count Event.installStatusChanged ∧
      (tick h1 s1).2.count Event.updateDisplayStatus =
        (tick h2 s2).2.count Event.updateDisplayStatus ∧
      (∃ rest, (tick h1 s1).2 = (checkUpdateJob h1 s1.updateJob).2 ++ rest ∧
        (tick h2 s2).2 = (checkUpdateJob h2 s2.updateJob).2 ++ rest) ∧
      (∀ j, s1.updateJob = some j → (h1.job j).isFinished = true →
        (h1.job j).isSuccess = true →
          (tick h1 s1).2.count Event.updateReady = 1 ∧
            (s1.watchList = [] → Event.installStatusChanged ∉ (tick h1 s1).2 ∧
              Event.updateDisplayStatus ∉ (tick h1 s1).2)) := by
  have hfg : failedGame h1 = failedGame h2 := by
    funext inf
    unfold failedGame
    rw [hg]
  refine ⟨?_, ?_, ?_, ?_, ?_, ?_⟩
  · rw [tick_list h1 s1 d1 hd1, tick_list h2 s2 d2 hd2, hw, hg]
  · rw [errors_tick h1 s1 d1 hd1, errors_tick h2 s2 d2 hd2, hw, hfg, hg]
  · rw [count_full_tick h1 s1 d1 hd1, count_full_tick h2 s2 d2 hd2, hw, hg]
  · rw [count_soft_tick h1 s1 d1 hd1, count_soft_tick h2 s2 d2 hd2, hw, hg]
  · refine ⟨s2.watchList.flatMap (visitLog h2) ++ refreshLog h2 s2.watchList, ?_, ?_⟩
    · rw [tick_log h1 s1 d1 hd1, hw, visitLog_congr h1 h2 hg, refreshLog_congr h1 h2 hg,
        List.append_assoc]
    · rw [tick_log h2 s2 d2 hd2, List.append_assoc]
  · intro j hj hfin hsucc
    constructor
    · rw [count_ready_tick h1 s1 d1 hd1]
      simp [checkUpdateJob, hj, hfin, hsucc]
    · intro hnil
      rw [← List.count_eq_zero, ← List.count_eq_zero, count_full_tick h1 s1 d1 hd1,
        count_soft_tick h1 s1 d1 hd1, hnil]
      simp

/-- C11, witness: the watch list 1, 2 with an empty slot and with the succeeded job 7 in
the slot; and the succeeded job 7 over an empty watch list. -/
theorem tick_slot_independent_witness :
    (attached none [1, 2]).data = some 100 ∧ (attached (some 7) [1, 2]).data = some 100 ∧
      (attached none [1, 2]).watchList = (attached (some 7) [1, 2]).watchList ∧
      (tick sampleHeap (attached none [1, 2])).1.watchList =
        (tick sampleHeap (attached (some 7) [1, 2])).1.watchList ∧
      errors (tick sampleHeap (attached none [1, 2])).2 =
        errors (tick sampleHeap (attached (some 7) [1, 2])).2 ∧
      ((tick sampleHeap (attached (some 7) [])).2.count Event.updateReady = 1 ∧
        Event.installStatusChanged ∉ (tick sampleHeap (attached (some 7) [])).2 ∧
        Event.updateDisplayStatus ∉ (tick sampleHeap (attached (some 7) [])).2) :=
  ⟨rfl, rfl, rfl,
    (tick_slot_independent sampleHeap sampleHeap (attached none [1, 2])
      (attached (some 7) [1, 2]) 100 100 rfl rfl rfl rfl).1,
    (tick_slot_independent sampleHeap sampleHeap (attached none [1, 2])
      (attached (some 7) [1, 2]) 100 100 rfl rfl rfl rfl).2.1,
    ((tick_slot_independent sampleHeap sampleHeap (attached (some 7) [])
      (attached (some 7) []) 100 100 rfl rfl rfl rfl).2.2.2.2.2 7 rfl (by decide)
      (by decide)).1,
    ((tick_slot_independent sampleHeap sampleHeap (attached (some 7) [])
      (attached (some 7) []) 100 100 rfl rfl rfl rfl).2.2.2.2.2 7 rfl (by decide)
      (by decide)).2 rfl⟩

/-- C13: with `data` set, the log of one tick is ordered. If `updateReady` is called, it
is the first entry, directly followed by the reset of the slot, and every poll, error box
and `updateStatus` call of the tick comes after both. If the full or the partial refresh
is made, it is the last entry: all that comes before it holds no refresh call, holds the
poll and the `updateStatus` call of every game of the watch list, every erasure and error
box of the tick, and the reset of the slot and the `updateReady` call if there are any. -/
theorem tick_event_order (h : Heap) (s : StatusNotifier) (d : Nat) (hd : s.data = some d) :
    (Event.updateReady ∈ (tick h s).2 →
        ∃ rest, (tick h s).2 = Event.updateReady :: Event.reset :: rest ∧
          Event.updateReady ∉ rest ∧ Event.reset ∉ rest ∧
          polled rest = s.watchList ∧ updated rest = s.watchList ∧
          erased rest = erased (tick h s).2 ∧ errors rest = errors (tick h s).2) ∧
      (∀ e, e = Event.installStatusChanged ∨ e = Event.updateDisplayStatus →
        e ∈ (tick h s).2 →
          ∃ front, (tick h s).2 = front ++ [e] ∧
            Event.installStatusChanged ∉ front ∧ Event.updateDisplayStatus ∉ front ∧
            polled front = s.watchList ∧ updated front = s.watchList ∧
            erased front = erased (tick h s).2 ∧ errors front = errors (tick h s).2 ∧
            front.count Event.reset = (tick h s).2.count Event.reset ∧
            front.count Event.updateReady = (tick h s).2.count Event.updateReady) := by
  have hlog := tick_log h s d hd
  have hrest := rest_reads h s.watchList
  have hfront := front_reads h s.updateJob s.watchList
  constructor
  · intro hm
    rw [hlog, List.append_assoc] at hm
    have hu : (checkUpdateJob h s.updateJob).2 = [Event.updateReady, Event.reset] := by
      rcases checkUpdateJob_log h s.updateJob with e | e | e
      · rw [e] at hm
        exact absurd hm hrest.1
      · rw [e] at hm
        rcases List.mem_append.mp hm with hm | hm
        · simp at hm
        · exact absurd hm hrest.1
      · exact e
    refine ⟨s.watchList.flatMap (visitLog h) ++ refreshLog h s.watchList, ?_, hrest.1,
      hrest.2.1, hrest.2.2.1, hrest.2.2.2, ?_, ?_⟩
    · rw [hlog, hu, List.append_assoc]
      rfl
    · rw [hlog, hu, List.append_assoc, erased_append [Event.updateReady, Event.reset]]
      rfl
    · rw [hlog, hu, List.append_assoc, errors_append [Event.updateReady, Event.reset]]
      rfl
  · intro e he hm
    have hr : refreshLog h s.watchList = [e] := by
      rw [hlog] at hm
      rcases refreshLog_cases h s.watchList with r | r | r
      · rw [r, List.append_nil] at hm
        rcases he with rfl | rfl
        · exact absurd hm hfront.1
        · exact absurd hm hfront.2.1
      · rcases he with rfl | rfl
        · exact r
        · rw [r] at hm
          rcases List.mem_append.mp hm with hm | hm
          · exact absurd hm hfront.2.1
          · simp at hm
      · rcases he with rfl | rfl
        · rw [r] at hm
          rcases List.mem_append.mp hm with hm | hm
          · exact absurd hm hfront.1
          · simp at hm
        · exact r
    refine ⟨(checkUpdateJob h s.updateJob).2 ++ s.watchList.flatMap (visitLog h), ?_,
      hfront.1, hfront.2.1, hfront.2.2.1, hfront.2.2.2, ?_, ?_, ?_, ?_⟩
    · rw [hlog, hr]
    · rw [hlog, hr, erased_append _ [e]]
      rcases he with rfl | rfl <;> simp [erased]
    · rw [hlog, hr, errors_append _ [e]]
      rcases he with rfl | rfl <;> simp [errors]
    · rw [hlog, hr, List.count_append _ _ [e]]
      rcases he with rfl | rfl <;> simp
    · rw [hlog, hr, List.count_append _ _ [e]]
      rcases he with rfl | rfl <;> simp

/-- C13, witness: the succeeded job 7 in the slot, the working game 1 and the failed
game 2 in the watch list: `updateReady` comes first and the full refresh last. -/
theorem tick_event_order_witness :
    (attached (some 7) [1, 2]).data = some 100 ∧
      Event.updateReady ∈ (tick sampleHeap (attached (some 7) [1, 2])).2 ∧
      Event.installStatusChanged ∈ (tick sampleHeap (attached (some 7) [1, 2])).2 ∧
      (∃ rest, (tick sampleHeap (attached (some 7) [1, 2])).2 =
          Event.updateReady :: Event.reset :: rest ∧ Event.updateReady ∉ rest) ∧
      (∃ front, (tick sampleHeap (attached (some 7) [1, 2])).2 =
          front ++ [Event.installStatusChanged] ∧ polled front = [1, 2]) := by
  refine ⟨rfl, by decide, by decide, ?_, ?_⟩
  · obtain ⟨rest, h1, h2, _⟩ :=
      (tick_event_order sampleHeap (attached (some 7) [1, 2]) 100 rfl).1 (by decide)
    exact ⟨rest, h1, h2⟩
  · obtain ⟨front, h1, _, _, h4, _⟩ :=
      (tick_event_order sampleHeap (attached (some 7) [1, 2]) 100 rfl).2
        Event.installStatusChanged (Or.inl rfl) (by decide)
    exact ⟨front, h1, h4⟩

/-- C14: the sweep is a total function of the watch list, and with `data` set one tick
calls `updateStatus` on the games of the watch list, in order, once per node: the number
of `updateStatus` calls on a game is the number of its nodes in the list at the start,
which is one when the list has no repeated node, whether the game is working or is erased
in this tick. For a game that is no longer working the log holds, in one run, its poll,
its erasure, the reading of its status, its error box if the status is an error, and
then its `updateStatus` call; with no repeated node no other `updateStatus` call on that
game stands before or after this run, so the call follows the erasure and the error
decision. -/
theorem tick_updateStatus_once (h : Heap) (s : StatusNotifier) (d : Nat)
    (hd : s.data = some d) :
    updated (tick h s).2 = s.watchList ∧
      (∀ inf, (tick h s).2.count (Event.updateStatus inf) = s.watchList.count inf) ∧
      (s.watchList.Nodup → ∀ inf ∈ s.watchList,
        (tick h s).2.count (Event.updateStatus inf) = 1) ∧
      (∀ inf ∈ s.watchList, (h.game inf).isWorking = false →
        ∃ a b, (tick h s).2 =
            a ++ ([Event.isWorking inf, Event.erase inf, Event.getStatus inf] ++
              (if (h.game inf).getStatus.isError then
                [Event.error inf (h.game inf).getStatus.getMessage] else []) ++
              [Event.updateStatus inf]) ++ b ∧
          (s.watchList.Nodup →
            Event.updateStatus inf ∉ a ∧ Event.updateStatus inf ∉ b)) := by
  have hcount : ∀ inf, (tick h s).2.count (Event.updateStatus inf) = s.watchList.count inf := by
    intro inf
    rw [count_updateStatus, updated_tick h s d hd]
  refine ⟨updated_tick h s d hd, hcount, ?_, ?_⟩
  · intro hn inf hin
    rw [hcount]
    exact List.count_eq_one_of_mem hn hin
  · intro inf hin hfin
    obtain ⟨w1, w2, hw⟩ := List.append_of_mem hin
    have hseg : visitLog h inf =
        [Event.isWorking inf, Event.erase inf, Event.getStatus inf] ++
          (if (h.game inf).getStatus.isError then
            [Event.error inf (h.game inf).getStatus.getMessage] else []) ++
          [Event.updateStatus inf] := by
      unfold visitLog
      cases he : (h.game inf).getStatus.isError <;> simp [hfin]
    have hsplit : (tick h s).2 =
        ((checkUpdateJob h s.updateJob).2 ++ w1.flatMap (visitLog h)) ++ visitLog h inf ++
          (w2.flatMap (visitLog h) ++ refreshLog h s.watchList) := by
      rw [tick_log h s d hd]
      nth_rewrite 1 [hw]
      simp [List.flatMap_append, List.append_assoc]
    refine ⟨(checkUpdateJob h s.updateJob).2 ++ w1.flatMap (visitLog h),
      w2.flatMap (visitLog h) ++ refreshLog h s.watchList, ?_, ?_⟩
    · rw [hsplit, hseg]
    · intro hn
      have h1 : (tick h s).2.count (Event.updateStatus inf) = 1 := by
        rw [hcount]
        exact List.count_eq_one_of_mem hn hin
      have hmid : (visitLog h inf).count (Event.updateStatus inf) = 1 := by
        rw [hseg]
        cases he : (h.game inf).getStatus.isError <;> simp
      rw [hsplit, List.count_append, List.count_append, hmid] at h1
      constructor
      · apply List.count_eq_zero.mp
        omega
      · apply List.count_eq_zero.mp
        omega

/-- C14, witness: in the watch list 1, 2, 3 the failed game 2 is erased, its error box is
raised and then its `updateStatus` call is made, once. -/
theorem tick_updateStatus_once_witness :
    (attached none [1, 2, 3]).data = some 100 ∧ (attached none [1, 2, 3]).watchList.Nodup ∧
      updated (tick sampleHeap (attached none [1, 2, 3])).2 = [1, 2, 3] ∧
      (tick sampleHeap (attached none [1, 2, 3])).2.count (Event.updateStatus 2) = 1 ∧
      (∃ a b, (tick sampleHeap (attached none [1, 2, 3])).2 =
          a ++ ([Event.isWorking 2, Event.erase 2, Event.getStatus 2] ++
            (if (sampleHeap.game 2).getStatus.isError then
              [Event.error 2 (sampleHeap.game 2).getStatus.getMessage] else []) ++
            [Event.updateStatus 2]) ++ b ∧
        Event.updateStatus 2 ∉ a ∧ Event.updateStatus 2 ∉ b) := by
  refine ⟨rfl, by decide,
    (tick_updateStatus_once sampleHeap (attached none [1, 2, 3]) 100 rfl).1,
    (tick_updateStatus_once sampleHeap (attached none [1, 2, 3]) 100 rfl).2.2.1 (by decide) 2
      (by decide), ?_⟩
  obtain ⟨a, b, h1, h2⟩ :=
    (tick_updateStatus_once sampleHeap (attached none [1, 2, 3]) 100 rfl).2.2.2 2 (by decide)
      (by decide)
  exact ⟨a, b, h1, h2 (by decide)⟩

/-- C15: with `data` set, let a second tick run directly after a first one, on the same
heap (no job or game has changed its answers) and on the notifier the first tick left (no
game was added, no job was put in the slot). Then the second tick erases no node, raises
no error box, does not call `updateReady`, does not reset the slot, makes no full refresh,
and leaves the notifier, watch list and slot included, exactly as the first tick left
it. -/
theorem second_tick_idle (h : Heap) (s : StatusNotifier) (d : Nat) (hd : s.data = some d) :
    erased (tick h (tick h s).1).2 = [] ∧
      errors (tick h (tick h s).1).2 = [] ∧
      Event.updateReady ∉ (tick h (tick h s).1).2 ∧
      Event.reset ∉ (tick h (tick h s).1).2 ∧
      Event.installStatusChanged ∉ (tick h (tick h s).1).2 ∧
      (tick h (tick h s).1).1 = (tick h s).1 ∧
      (tick h (tick h s).1).1.watchList = (tick h s).1.watchList ∧
      (tick h (tick h s).1).1.updateJob = (tick h s).1.updateJob := by
  have hlog : ∀ e ∈ (tick h (tick h s).1).2,
      (∃ i, e = Event.isWorking i) ∨ (∃ i, e = Event.updateStatus i) ∨
        e = Event.updateDisplayStatus := by
    intro e he
    rw [tick_again h s d hd] at he
    rcases List.mem_append.mp he with he | he
    · obtain ⟨i, _, hi⟩ := List.mem_flatMap.mp he
      simp only [List.mem_cons, List.mem_singleton, List.not_mem_nil, or_false] at hi
      rcases hi with rfl | rfl
      · exact Or.inl ⟨i, rfl⟩
      · exact Or.inr (Or.inl ⟨i, rfl⟩)
    · split_ifs at he
      · cases he
      · simp only [List.mem_singleton] at he
        exact Or.inr (Or.inr he)
  have hnone : ∀ e, (∀ i, e ≠ Event.isWorking i) → (∀ i, e ≠ Event.updateStatus i) →
      e ≠ Event.updateDisplayStatus → e ∉ (tick h (tick h s).1).2 := by
    intro e h1 h2 h3 he
    rcases hlog e he with ⟨i, hi⟩ | ⟨i, hi⟩ | hi
    · exact h1 i hi
    · exact h2 i hi
    · exact h3 hi
  have hstate : (tick h (tick h s).1).1 = (tick h s).1 := by
    rw [tick_again h s d hd]
  refine ⟨?_, ?_, ?_, ?_, ?_, hstate, by rw [hstate], by rw [hstate]⟩
  · cases hl : erased (tick h (tick h s).1).2 with
    | nil => rfl
    | cons q l =>
      have hq : q ∈ erased (tick h (tick h s).1).2 := by rw [hl]; simp
      unfold erased at hq
      obtain ⟨e, he, heq⟩ := List.mem_filterMap.mp hq
      rcases hlog e he with ⟨i, hi⟩ | ⟨i, hi⟩ | hi <;> rw [hi] at heq <;> simp at heq
  · cases hl : errors (tick h (tick h s).1).2 with
    | nil => rfl
    | cons q l =>
      have hq : q ∈ errors (tick h (tick h s).1).2 := by rw [hl]; simp
      unfold errors at hq
      obtain ⟨e, he, heq⟩ := List.mem_filterMap.mp hq
      rcases hlog e he with ⟨i, hi⟩ | ⟨i, hi⟩ | hi <;> rw [hi] at heq <;> simp at heq
  · exact hnone _ (by simp) (by simp) (by simp)
  · exact hnone _ (by simp) (by simp) (by simp)
  · exact hnone _ (by simp) (by simp) (by simp)

/-- C15, witness: the first tick drains the succeeded job 7 and erases the failed game 2
and the finished game 3; the second tick, on the same heap, erases and reports nothing. -/
theorem second_tick_idle_witness :
    (attached (some 7) [1, 2, 3]).data = some 100 ∧
      erased (tick sampleHeap (attached (some 7) [1, 2, 3])).2 = [2, 3] ∧
      erased (tick sampleHeap (tick sampleHeap (attached (some 7) [1, 2, 3])).1).2 = [] ∧
      errors (tick sampleHeap (tick sampleHeap (attached (some 7) [1, 2, 3])).1).2 = [] ∧
      (tick sampleHeap (tick sampleHeap (attached (some 7) [1, 2, 3])).1).1 =
        (tick sampleHeap (attached (some 7) [1, 2, 3])).1 :=
  ⟨rfl, by decide,
    (second_tick_idle sampleHeap (attached (some 7) [1, 2, 3]) 100 rfl).1,
    (second_tick_idle sampleHeap (attached (some 7) [1, 2, 3]) 100 rfl).2.1,
    (second_tick_idle sampleHeap (attached (some 7) [1, 2, 3]) 100 rfl).2.2.2.2.2.1⟩

/-- C16: take any run of n ticks from a notifier with `data` set, each tick on its own
heap; between the ticks games may be entered in the watch list and the update job slot
may be assigned. If the game `p` is in the watch list at the start and answers
`isWorking()` with true in the heap of every tick, then `p` is in the watch list after
the n ticks and there are n logs; and for every tick of the run, `p` is in the watch
list before and after it, its log holds exactly one refresh call, never none, the full
refresh is the one made exactly when some other game of the watch list the tick starts
from is no longer working, and the partial refresh exactly when all of them are
working. -/
theorem ticks_keep_working (s : StatusNotifier) (rs : List Round) (d p : Nat)
    (hd : s.data = some d) (hp : p ∈ s.watchList) (hrun : isRun s rs)
    (hwork : ∀ r ∈ rs, (r.heap.game p).isWorking = true) :
    p ∈ (runEnd s rs).watchList ∧
      (runLogs rs).length = rs.length ∧
      (∀ r ∈ rs,
        p ∈ r.start.watchList ∧ p ∈ (tick r.heap r.start).1.watchList ∧
          (tick r.heap r.start).2 ∈ runLogs rs ∧
          (tick r.heap r.start).2.count Event.installStatusChanged +
            (tick r.heap r.start).2.count Event.updateDisplayStatus = 1 ∧
          (Event.installStatusChanged ∈ (tick r.heap r.start).2 ∨
            Event.updateDisplayStatus ∈ (tick r.heap r.start).2) ∧
          (Event.installStatusChanged ∈ (tick r.heap r.start).2 ↔
            ∃ q ∈ r.start.watchList, q ≠ p ∧ (r.heap.game q).isWorking = false) ∧
          (Event.updateDisplayStatus ∈ (tick r.heap r.start).2 ↔
            ∀ q ∈ r.start.watchList, (r.heap.game q).isWorking = true)) := by
  induction rs generalizing s with
  | nil =>
    refine ⟨hp, rfl, ?_⟩
    intro r hr
    cases hr
  | cons r rs ih =>
    obtain ⟨⟨hdata, hsub⟩, hrest⟩ := hrun
    have hd0 : r.start.data = some d := by rw [hdata, hd]
    have hp0 : p ∈ r.start.watchList := hsub p hp
    obtain ⟨k1, k2, k3, k4, k5, k6⟩ :=
      round_of_working r d p hd0 hp0 (hwork r (by simp))
    obtain ⟨i1, _, i3⟩ := ih r.run.1 k2 k1 hrest (fun g hg => hwork g (by simp [hg]))
    refine ⟨i1, by simp [runLogs], ?_⟩
    intro g hg
    rcases List.mem_cons.mp hg with rfl | hg
    · exact ⟨hp0, k1, by simp [runLogs, Round.run], k3, k4, k5, k6⟩
    · obtain ⟨j1, j2, j3, j4⟩ := i3 g hg
      refine ⟨j1, j2, ?_, j4⟩
      unfold runLogs at j3 ⊢
      exact List.mem_cons_of_mem _ j3

/-- C16, witness: three ticks on the sample heap. The first starts from the watch list
1, 2, 3 and erases the failed game 2 and the finished game 3; before the second the
finished game 3 is entered again and the job 7 is put in the slot; the third starts from
what the second left. The working game 1 stays; the first two ticks make the full
refresh and the third the partial one. -/
theorem ticks_keep_working_witness :
    (attached none [1, 2, 3]).data = some 100 ∧ 1 ∈ (attached none [1, 2, 3]).watchList ∧
      isRun (attached none [1, 2, 3])
        [{ start := attached none [1, 2, 3], heap := sampleHeap },
          { start := attached (some 7) [1, 3], heap := sampleHeap },
          { start := attached none [1], heap := sampleHeap }] ∧
      1 ∈ (runEnd (attached none [1, 2, 3])
        [{ start := attached none [1, 2, 3], heap := sampleHeap },
          { start := attached (some 7) [1, 3], heap := sampleHeap },
          { start := attached none [1], heap := sampleHeap }]).watchList ∧
      (Event.installStatusChanged ∈ (tick sampleHeap (attached (some 7) [1, 3])).2 ↔
        ∃ q ∈ (attached (some 7) [1, 3]).watchList,
          q ≠ 1 ∧ (sampleHeap.game q).isWorking = false) ∧
      (Event.updateDisplayStatus ∈ (tick sampleHeap (attached none [1])).2 ↔
        ∀ q ∈ (attached none [1]).watchList, (sampleHeap.game q).isWorking = true) :=
  ⟨rfl, by decide,
    ⟨⟨rfl, by decide⟩, ⟨rfl, by decide⟩, ⟨rfl, by decide⟩, trivial⟩,
    (ticks_keep_working (attached none [1, 2, 3])
      [{ start := attached none [1, 2, 3], heap := sampleHeap },
        { start := attached (some 7) [1, 3], heap := sampleHeap },
        { start := attached none [1], heap := sampleHeap }] 100 1 rfl (by decide)
      ⟨⟨rfl, by decide⟩, ⟨rfl, by decide⟩, ⟨rfl, by decide⟩, trivial⟩
      (by simp [sampleHeap, GameInf.isWorking])).1,
    ((ticks_keep_working (attached none [1, 2, 3])
      [{ start := attached none [1, 2, 3], heap := sampleHeap },
        { start := attached (some 7) [1, 3], heap := sampleHeap },
        { start := attached none [1], heap := sampleHeap }] 100 1 rfl (by decide)
      ⟨⟨rfl, by decide⟩, ⟨rfl, by decide⟩, ⟨rfl, by decide⟩, trivial⟩
      (by simp [sampleHeap, GameInf.isWorking])).2.2
      { start := attached (some 7) [1, 3], heap := sampleHeap } (by simp)).2.2.2.2.2.1,
    ((ticks_keep_working (attached none [1, 2, 3])
      [{ start := attached none [1, 2, 3], heap := sampleHeap },
        { start := attached (some 7) [1, 3], heap := sampleHeap },
        { start := attached none [1], heap := sampleHeap }] 100 1 rfl (by decide)
      ⟨⟨rfl, by decide⟩, ⟨rfl, by decide⟩, ⟨rfl, by decide⟩, trivial⟩
      (by simp [sampleHeap, GameInf.isWorking])).2.2
      { start := attached none [1], heap := sampleHeap } (by simp)).2.2.2.2.2.2⟩

/-- C17: with `data` set, if the game `p` of the watch list is no longer working and its
status is an abort, one tick removes `p` from the watch list, makes the full refresh and
not the partial one, and raises no error box for `p`; the whole tick, notifier and log,
is the same as when the status of `p` is a success instead. An error box is raised for a
game exactly when the game is in the watch list, is no longer working and its status has
the error flag, whatever its success flag says. -/
theorem tick_aborted_game (h : Heap) (s : StatusNotifier) (d p : Nat)
    (hd : s.data = some d) (hp : p ∈ s.watchList)
    (hfin : (h.game p).isWorking = false) (hab : (h.game p).getStatus.isAbort = true) :
    p ∉ (tick h s).1.watchList ∧
      Event.installStatusChanged ∈ (tick h s).2 ∧
      Event.updateDisplayStatus ∉ (tick h s).2 ∧
      (∀ m, Event.error p m ∉ (tick h s).2) ∧
      tick h s =
        tick (setGame h p
          { working := false
            info := { status := JobStatus.succeeded,
                      message := (h.game p).getStatus.getMessage } }) s ∧
      (∀ q m, Event.error q m ∈ (tick h s).2 ↔
        q ∈ s.watchList ∧ (h.game q).isWorking = false ∧
          (h.game q).getStatus.isError = true ∧ m = (h.game q).getStatus.getMessage) := by
  have hnerr : (h.game p).getStatus.isError = false := by
    unfold JobInfo.isAbort at hab
    unfold JobInfo.isError
    cases hst : (h.game p).getStatus.status <;> simp [hst] at hab ⊢
  have hsig := refresh_signal_tick h s d hd
  have herr : ∀ q m, Event.error q m ∈ (tick h s).2 ↔
      q ∈ s.watchList ∧ (h.game q).isWorking = false ∧
        (h.game q).getStatus.isError = true ∧ m = (h.game q).getStatus.getMessage := by
    intro q m
    rw [← mem_errors, errors_tick h s d hd, List.mem_map]
    constructor
    · rintro ⟨a, ha, heq⟩
      obtain ⟨ha1, ha2⟩ := List.mem_filter.mp ha
      obtain ⟨rfl, rfl⟩ := Prod.mk.inj heq
      simp only [failedGame, Bool.and_eq_true, Bool.not_eq_true'] at ha2
      exact ⟨ha1, ha2.1, ha2.2, rfl⟩
    · rintro ⟨hq, hq1, hq2, rfl⟩
      exact ⟨q, List.mem_filter.mpr ⟨hq, by simp [failedGame, hq1, hq2]⟩, rfl⟩
  refine ⟨?_, ?_, ?_, ?_, ?_, herr⟩
  · rw [tick_list h s d hd]
    simp [hfin]
  · exact hsig.2.1.mpr ⟨p, hp, hfin⟩
  · intro hc
    have hall := (hsig.2.2.1.mp hc).2 p hp
    rw [hfin] at hall
    cases hall
  · intro m hm
    have := ((herr p m).mp hm).2.2.1
    rw [hnerr] at this
    cases this
  · apply tick_congr
    · rfl
    · intro q _
      by_cases hq : q = p
      · subst hq
        rw [hfin]
        simp [setGame, GameInf.isWorking]
      · simp [setGame, hq]
    · intro q _
      by_cases hq : q = p
      · subst hq
        have hl : visitLog h q =
            [Event.isWorking q, Event.erase q, Event.getStatus q, Event.updateStatus q] := by
          simp [visitLog, hfin, hnerr]
        rw [hl]
        simp [visitLog, setGame, GameInf.isWorking, GameInf.getStatus, JobInfo.isError]
      · simp [visitLog, setGame, hq]

/-- C17, witness: the aborted game 4 between the working games 1 and 5. -/
theorem tick_aborted_game_witness :
    (attached none [1, 4, 5]).data = some 100 ∧ 4 ∈ (attached none [1, 4, 5]).watchList ∧
      (sampleHeap.game 4).isWorking = false ∧ (sampleHeap.game 4).getStatus.isAbort = true ∧
      4 ∉ (tick sampleHeap (attached none [1, 4, 5])).1.watchList ∧
      Event.installStatusChanged ∈ (tick sampleHeap (attached none [1, 4, 5])).2 ∧
      Event.updateDisplayStatus ∉ (tick sampleHeap (attached none [1, 4, 5])).2 ∧
      Event.error 4 "" ∉ (tick sampleHeap (attached none [1, 4, 5])).2 :=
  ⟨rfl, by decide, by decide, by decide,
    (tick_aborted_game sampleHeap (attached none [1, 4, 5]) 100 4 rfl (by decide) (by decide)
      (by decide)).1,
    (tick_aborted_game sampleHeap (attached none [1, 4, 5]) 100 4 rfl (by decide) (by decide)
      (by decide)).2.1,
    (tick_aborted_game sampleHeap (attached none [1, 4, 5]) 100 4 rfl (by decide) (by decide)
      (by decide)).2.2.1,
    (tick_aborted_game sampleHeap (attached none [1, 4, 5]) 100 4 rfl (by decide) (by decide)
      (by decide)).2.2.2.1 ""⟩

/-- C18: the method `statusChanged` leaves the notifier as it was, watch list and update
job slot included, whether or not `data` is set; with `data` set it calls
`installStatusChanged` exactly once and makes no other call, and with no `data` it makes
no call at all. -/
theorem statusChanged_frame (s : StatusNotifier) :
    (statusChangedStep s).1 = s ∧
      (statusChangedStep s).1.watchList = s.watchList ∧
      (statusChangedStep s).1.updateJob = s.updateJob ∧
      (∀ d, s.data = some d →
        (statusChangedStep s).2 = [Event.installStatusChanged] ∧
          (statusChangedStep s).2.count Event.installStatusChanged = 1) ∧
      (s.data = none → (statusChangedStep s).2 = []) := by
  refine ⟨rfl, rfl, rfl, ?_, ?_⟩
  · intro d hd
    simp [statusChangedStep, statusChanged, hd]
  · intro hd
    simp [statusChangedStep, statusChanged, hd]

/-- C18, witness: one notifier with `data` set and one without, both with the job 7 in
the slot and the games 1 and 2 in the watch list. -/
theorem statusChanged_frame_witness :
    (attached (some 7) [1, 2]).data = some 100 ∧ (detached (some 7) [1, 2]).data = none ∧
      statusChangedStep (attached (some 7) [1, 2]) =
        (attached (some 7) [1, 2], [Event.installStatusChanged]) ∧
      statusChangedStep (detached (some 7) [1, 2]) = (detached (some 7) [1, 2], []) :=
  ⟨rfl, rfl,
    Prod.ext (statusChanged_frame (attached (some 7) [1, 2])).1
      ((statusChanged_frame (attached (some 7) [1, 2])).2.2.2.1 100 rfl).1,
    Prod.ext (statusChanged_frame (detached (some 7) [1, 2])).1
      ((statusChanged_frame (detached (some 7) [1, 2])).2.2.2.2 rfl)⟩

end Tiggit
